import Mathlib

/-!
# Verification of the cheesegrader upload workflow (`src/workflows.py`)

Shallow embedding of the upload-orchestration core of the repository:
`search_dirs`, `upload_grades`, `upload_files` and `upload` from
`src/workflows.py`, plus `QuercusAssignment.group_data_expand` from
`src/cheesegrader/api_tools/assignments.py`.

Modelling choices, each matched against the source:

* A grade is an opaque value passed through to the client; the workflow only
  distinguishes `None` (missing) from a present value.  We use `Int` for the
  payload; `Option Grade` models Python's `grade is None` test.
* A search root is modelled as the list of its directory-tree entries in
  `rglob` discovery order; an entry carries its path and its final name
  component.  `d.rglob(f"{idx}*")` keeps exactly the entries whose name
  starts with `idx` (glob `idx*`; identifiers contain no glob
  metacharacters), in discovery order.
* The assignment client is an oracle: `post_grade` returns `response.ok`
  (a `Bool`) and may raise (network error) — `Except Unit Bool` with
  `.error` for a raised exception; likewise `upload_file`.
* Each workflow function returns the error list it builds plus the trace of
  client calls it makes, in order, so that claims about calls being made or
  not made are statable.
* Error messages are structured constructors, one per f-string of the
  source: `missingGrade id` for `f"{sis_id}: \t Missing grade"`,
  `postFailed id` for `f"{sis_id}: \t Missing student or post failed"`,
  `noFilesFound id` for `f"{lid}: \t No files found"`, `fewerFiles id` for
  `f"{lid}: \t Fewer files found than directories searched. Likely missing
  files."` and `uploadFailed id name` for
  `f"{lid}: \t Upload failed for {f.name}"`.
-/

namespace Cheesegrader

/-- Grades are opaque pass-through payloads for the workflow. -/
abbrev Grade := Int

/-- One entry of a directory tree: its full path and its file name. -/
structure FileEnt where
  path : String
  name : String
deriving DecidableEq, Repr

/-- A search root: its recursive directory-tree entries in discovery order. -/
abbrev Root := List FileEnt

/-- `d.rglob(f"{idx}*")` keeps an entry iff its name starts with `idx`
(glob pattern `idx*`, identifiers free of glob metacharacters). -/
def rglobMatches (idx : String) (f : FileEnt) : Bool :=
  idx.toList.isPrefixOf f.name.toList

/-- `search_dirs` from `src/workflows.py`:
`output = []` then `for d in dirs: output.extend(list(d.rglob(f"{idx}*")))`. -/
def search_dirs (idx : String) (dirs : List Root) : List FileEnt :=
  dirs.foldl (fun output d => output ++ d.filter (rglobMatches idx)) []

/-- The error messages `upload_grades`/`upload_files` append, one
constructor per f-string of the source (see the module docstring). -/
inductive Err where
  | missingGrade (id : String)
  | postFailed (id : String)
  | noFilesFound (id : String)
  | fewerFiles (id : String)
  | uploadFailed (id : String) (fname : String)
deriving DecidableEq, Repr

/-- The identifier an error message is about (the `{sis_id}`/`{lid}` slot). -/
def Err.errId : Err → String
  | .missingGrade id => id
  | .postFailed id => id
  | .noFilesFound id => id
  | .fewerFiles id => id
  | .uploadFailed id _ => id

/-- A client call made by the workflow. -/
inductive Call where
  | postGrade (id : String) (grade : Grade)
  | uploadFile (id : String) (f : FileEnt)
deriving DecidableEq, Repr

/-- The identifier a call is for. -/
def Call.callId : Call → String
  | .postGrade id _ => id
  | .uploadFile id _ => id

/-- Whether a call is an `upload_file` call. -/
def Call.isUpload : Call → Bool
  | .postGrade _ _ => false
  | .uploadFile _ _ => true

/-- Whether a call is a `post_grade` call. -/
def Call.isPost : Call → Bool
  | .postGrade _ _ => true
  | .uploadFile _ _ => false

/-- The `QuercusAssignment` client as the workflow sees it.
`post_grade` returns `response.ok : Bool` and may raise (`.error ()`);
`upload_file` likewise (`src/cheesegrader/api_tools/assignments.py`). -/
structure Client where
  postGrade : String → Grade → Except Unit Bool
  uploadFile : String → FileEnt → Except Unit Bool

/-- `upload_grades` from `src/workflows.py`: iterate the grade dict in
order; `grade is None` appends `missingGrade` and skips the client; else
`post_grade` is called, its return value ignored, and only a raised
exception appends `postFailed`.  Returns `(error_list, calls made)`. -/
def upload_grades (cl : Client) : List (String × Option Grade) → List Err × List Call
  | [] => ([], [])
  | (sisId, grade) :: rest =>
    let r := upload_grades cl rest
    match grade with
    | none => (.missingGrade sisId :: r.1, r.2)
    | some g =>
      match cl.postGrade sisId g with
      | .error _ => (.postFailed sisId :: r.1, .postGrade sisId g :: r.2)
      | .ok _ => (r.1, .postGrade sisId g :: r.2)

/-- The inner `for f in files` loop of `upload_files`: every file is passed
to `upload_file`; a raised exception appends `uploadFailed` and the loop
continues. -/
def uploadFiles_loop (cl : Client) (lid : String) : List FileEnt → List Err × List Call
  | [] => ([], [])
  | f :: fs =>
    let r := uploadFiles_loop cl lid fs
    match cl.uploadFile lid f with
    | .error _ => (.uploadFailed lid f.name :: r.1, .uploadFile lid f :: r.2)
    | .ok _ => (r.1, .uploadFile lid f :: r.2)

/-- `upload_files` from `src/workflows.py`: for each lookup id,
`files = search_dirs(lid, dirs)`; `if not files` append `noFilesFound`;
then `if len(files) < len(dirs)` append `fewerFiles` **else** run the
upload loop (the warning branch and the upload loop are mutually
exclusive in the source). -/
def upload_files (cl : Client) : List String → List Root → List Err × List Call
  | [], _ => ([], [])
  | lid :: rest, dirs =>
    let files := search_dirs lid dirs
    let notFound : List Err := if files.isEmpty then [.noFilesFound lid] else []
    let branch : List Err × List Call :=
      if files.length < dirs.length then ([.fewerFiles lid], [])
      else uploadFiles_loop cl lid files
    let r := upload_files cl rest dirs
    (notFound ++ branch.1 ++ r.1, branch.2 ++ r.2)

/-- `UploadMode` from `src/workflows.py`. -/
inductive UploadMode where
  | GRADES
  | FILES
  | BOTH
deriving DecidableEq, Repr

/-- `upload` from `src/workflows.py`: `error_list = []`; if
`mode in (GRADES, BOTH)` extend with `upload_grades`; if
`mode in (FILES, BOTH)` extend with `upload_files`. -/
def upload (cl : Client) (grades : List (String × Option Grade))
    (lookup_ids : List String) (dirs : List Root) (mode : UploadMode) :
    List Err × List Call :=
  let g := if mode = .GRADES ∨ mode = .BOTH then upload_grades cl grades else ([], [])
  let f := if mode = .FILES ∨ mode = .BOTH then upload_files cl lookup_ids dirs else ([], [])
  (g.1 ++ f.1, g.2 ++ f.2)

/-- One member record of `group_data_expand`. -/
structure GroupRecord where
  id : String
  grade : Grade
  group_id : String
deriving DecidableEq, Repr

/-- The group-data member-expansion method of `QuercusAssignment` from
`src/cheesegrader/api_tools/assignments.py` (named `group_data_expand`
here): given the member list the group-users endpoint returned
(`respUsers`, each member's `sis_user_id`) and
`group_info = (group id, grade)`, build one `{id, grade, group_id}` record
per member. -/
def group_data_expand (respUsers : List String) (group_info : String × Grade) :
    List GroupRecord :=
  respUsers.map (fun sid => ⟨sid, group_info.2, group_info.1⟩)

/-- A client whose calls all succeed (HTTP 2xx, nothing raised). -/
def clientOk : Client :=
  ⟨fun _ _ => .ok true, fun _ _ => .ok true⟩

/-- A client whose calls all return a non-2xx result (`False`) without
raising — what `requests` does for a 4xx/5xx response. -/
def clientFalse : Client :=
  ⟨fun _ _ => .ok false, fun _ _ => .ok false⟩

/-- A client that raises exactly on id `"bad"`. -/
def clientRaisesBad : Client :=
  ⟨fun id _ => if id = "bad" then .error () else .ok true,
   fun id _ => if id = "bad" then .error () else .ok true⟩

/-- The locator as the specification words it (for refinement comparison
only, not a translation of the source): keep the files whose name contains
the identifier as a contiguous, case-sensitive substring, root order then
discovery order, no deduplication. -/
def locate_spec (idx : String) (dirs : List Root) : List FileEnt :=
  (dirs.map (fun d => d.filter (fun f => decide (idx.toList <:+: f.name.toList)))).flatten

/-- A rubric file for student `stu1`: its name starts with the id. -/
def stuEnt : FileEnt := ⟨"dirA/stu1_x.pdf", "stu1_x.pdf"⟩

/-- A file whose name matches no student id used in the examples. -/
def otherEnt : FileEnt := ⟨"dirA/other.pdf", "other.pdf"⟩

/-- A file whose name contains `stu1` strictly inside, not at the start. -/
def infixEnt : FileEnt := ⟨"dirA/x_stu1.pdf", "x_stu1.pdf"⟩

/-- A file in a first example root. -/
def e1Ent : FileEnt := ⟨"r1/a.pdf", "a.pdf"⟩

/-- A file in a second example root. -/
def e2Ent : FileEnt := ⟨"r2/b.txt", "b.txt"⟩

/-! ## Helper lemmas -/

/-- The `search_dirs` accumulator loop, generalized over its accumulator. -/
theorem search_dirs_foldl (idx : String) (dirs : List Root) (acc : List FileEnt) :
    dirs.foldl (fun output d => output ++ d.filter (rglobMatches idx)) acc
      = acc ++ (dirs.map (fun d => d.filter (rglobMatches idx))).flatten := by
  induction dirs generalizing acc with
  | nil => simp
  | cons d ds ih => simp [List.foldl_cons, ih]

/-- `search_dirs` is the flat concatenation of the per-root matches. -/
theorem search_dirs_eq (idx : String) (dirs : List Root) :
    search_dirs idx dirs = (dirs.map (fun d => d.filter (rglobMatches idx))).flatten := by
  simpa using search_dirs_foldl idx dirs []

/-- The error component of `upload_grades`, as a `filterMap`. -/
theorem upload_grades_fst (cl : Client) (grades : List (String × Option Grade)) :
    (upload_grades cl grades).1 = grades.filterMap (fun p =>
      match p.2 with
      | none => some (Err.missingGrade p.1)
      | some g =>
        match cl.postGrade p.1 g with
        | .error _ => some (Err.postFailed p.1)
        | .ok _ => none) := by
  induction grades with
  | nil => rfl
  | cons p rest ih =>
    obtain ⟨id, g⟩ := p
    cases g with
    | none => simp [upload_grades, ih]
    | some g =>
      cases h : cl.postGrade id g <;> simp [upload_grades, h, ih]

/-- The call trace of `upload_grades`: one `postGrade` per present grade. -/
theorem upload_grades_snd (cl : Client) (grades : List (String × Option Grade)) :
    (upload_grades cl grades).2 = grades.filterMap (fun p =>
      match p.2 with
      | none => none
      | some g => some (Call.postGrade p.1 g)) := by
  induction grades with
  | nil => rfl
  | cons p rest ih =>
    obtain ⟨id, g⟩ := p
    cases g with
    | none => simp [upload_grades, ih]
    | some g =>
      cases h : cl.postGrade id g <;> simp [upload_grades, h, ih]

/-- The upload loop calls `upload_file` on every located file, in order. -/
theorem uploadFiles_loop_snd (cl : Client) (lid : String) (fs : List FileEnt) :
    (uploadFiles_loop cl lid fs).2 = fs.map (Call.uploadFile lid) := by
  induction fs with
  | nil => rfl
  | cons f fs ih =>
    cases h : cl.uploadFile lid f <;> simp [uploadFiles_loop, h, ih]

/-- Every call `upload_files` makes is an `uploadFile` call. -/
theorem upload_files_calls_upload (cl : Client) (ids : List String) (dirs : List Root) :
    ∀ c ∈ (upload_files cl ids dirs).2, c.isUpload = true := by
  induction ids with
  | nil => simp [upload_files]
  | cons lid rest ih =>
    intro c hc
    simp only [upload_files, List.mem_append] at hc
    rcases hc with hc | hc
    · rcases h : decide ((search_dirs lid dirs).length < dirs.length) with hd | hd
      · rw [if_neg (by simpa using h), uploadFiles_loop_snd] at hc
        simp only [List.mem_map] at hc
        obtain ⟨f, _, rfl⟩ := hc
        rfl
      · rw [if_pos (by simpa using h)] at hc
        simp at hc
    · exact ih c hc

/-- A list of calls that are all uploads contains no `postGrade` call. -/
theorem filter_isPost_eq_nil (l : List Call) (h : ∀ c ∈ l, c.isUpload = true) :
    l.filter Call.isPost = [] := by
  induction l with
  | nil => rfl
  | cons c cs ih =>
    have hc := h c (by simp)
    cases c with
    | postGrade id g => simp [Call.isUpload] at hc
    | uploadFile id f =>
      simp only [List.filter_cons, Call.isPost, Bool.false_eq_true, if_false]
      exact ih (fun c hm => h c (by simp [hm]))

/-- The `upload_grades` trace contains no `uploadFile` call. -/
theorem upload_grades_filter_isUpload (cl : Client) (grades : List (String × Option Grade)) :
    ((upload_grades cl grades).2).filter Call.isUpload = [] := by
  rw [upload_grades_snd]
  induction grades with
  | nil => rfl
  | cons p rest ih =>
    obtain ⟨id, g⟩ := p
    cases g with
    | none => simpa using ih
    | some g => simpa [List.filterMap_cons, List.filter_cons, Call.isUpload] using ih

/-- Per-identifier error count of the grades phase is bounded by the
multiplicity of the identifier among the grade-map keys. -/
theorem upload_grades_errId_count_le (cl : Client) (grades : List (String × Option Grade))
    (id : String) :
    (((upload_grades cl grades).1.map Err.errId).count id)
      ≤ ((grades.map Prod.fst).count id) := by
  induction grades with
  | nil => simp [upload_grades]
  | cons p rest ih =>
    obtain ⟨pid, g⟩ := p
    cases g with
    | none =>
      simp only [upload_grades, List.map_cons, List.count_cons, Err.errId]
      exact Nat.add_le_add_right ih _
    | some g =>
      cases h : cl.postGrade pid g with
      | error e =>
        simp only [upload_grades, h, List.map_cons, List.count_cons, Err.errId]
        exact Nat.add_le_add_right ih _
      | ok b =>
        simp only [upload_grades, h, List.map_cons, List.count_cons]
        exact le_trans ih (Nat.le_add_right _ _)

/-! ## Claim theorems -/

/-- C9: with an empty list of search roots, every lookup id gets exactly one
"No files found" error, no "fewer files than directories" warning is
recorded (0 matches is not fewer than 0 roots), and `upload_file` is never
called. -/
theorem upload_files_no_dirs (cl : Client) (ids : List String) :
    upload_files cl ids [] = (ids.map Err.noFilesFound, []) := by
  induction ids with
  | nil => rfl
  | cons lid rest ih =>
    simp [upload_files, search_dirs, uploadFiles_loop, ih]

/-- C7: with `mode = GRADES` no `upload_file` call is ever made, with
`mode = FILES` no `post_grade` call is ever made, and with `mode = BOTH`
the result is the grades-phase output followed by the files-phase output
(errors and calls alike). -/
theorem upload_mode_gating :
    (∀ (cl : Client) (g : List (String × Option Grade)) (l : List String) (d : List Root),
        ((upload cl g l d .GRADES).2).filter Call.isUpload = []) ∧
    (∀ (cl : Client) (g : List (String × Option Grade)) (l : List String) (d : List Root),
        ((upload cl g l d .FILES).2).filter Call.isPost = []) ∧
    (∀ (cl : Client) (g : List (String × Option Grade)) (l : List String) (d : List Root),
        upload cl g l d .BOTH =
          ((upload_grades cl g).1 ++ (upload_files cl l d).1,
           (upload_grades cl g).2 ++ (upload_files cl l d).2)) := by
  refine ⟨fun cl g l d => ?_, fun cl g l d => ?_, fun cl g l d => rfl⟩
  · have h : (upload cl g l d .GRADES).2 = (upload_grades cl g).2 := by
      simp [upload]
    rw [h]
    exact upload_grades_filter_isUpload cl g
  · have h : (upload cl g l d .FILES).2 = (upload_files cl l d).2 := by
      simp [upload]
    rw [h]
    exact filter_isPost_eq_nil _ (upload_files_calls_upload cl l d)

/-- C8: in the grades phase a missing grade yields the "Missing grade"
error and contributes no client call, while any present grade (zero
included) is posted via `post_grade`; concretely, grades
`{stu1: 95, stu2: None}` in `GRADES` mode make exactly one
`post_grade("stu1", 95)` call and return exactly the missing-grade error
for `stu2`. -/
theorem upload_grades_missing_vs_present :
    (∀ (cl : Client) (id : String) (rest : List (String × Option Grade)),
        upload_grades cl ((id, none) :: rest)
          = (Err.missingGrade id :: (upload_grades cl rest).1,
             (upload_grades cl rest).2)) ∧
    (∀ (cl : Client) (id : String) (g : Grade) (rest : List (String × Option Grade)),
        Call.postGrade id g ∈ (upload_grades cl ((id, some g) :: rest)).2) ∧
    upload clientOk [("stu1", some 95), ("stu2", none)] [] [] .GRADES
      = ([Err.missingGrade "stu2"], [Call.postGrade "stu1" 95]) := by
  refine ⟨fun cl id rest => rfl, fun cl id g rest => ?_, by decide⟩
  cases h : cl.postGrade id g <;> simp [upload_grades, h]

/-- C3 (amended): the grades phase records "Missing grade" for a `None`
grade and "Missing student or post failed" exactly for the ids whose
`post_grade` call raises; a call that merely returns `False` (non-2xx)
records no error, and every id is processed regardless of earlier
failures — the error list and the call trace are pointwise functions of
the grade map. -/
theorem upload_grades_error_iff_raise (cl : Client) (grades : List (String × Option Grade)) :
    (upload_grades cl grades).1 = grades.filterMap (fun p =>
      match p.2 with
      | none => some (Err.missingGrade p.1)
      | some g =>
        match cl.postGrade p.1 g with
        | .error _ => some (Err.postFailed p.1)
        | .ok _ => none) ∧
    (upload_grades cl grades).2 = grades.filterMap (fun p =>
      match p.2 with
      | none => none
      | some g => some (Call.postGrade p.1 g)) :=
  ⟨upload_grades_fst cl grades, upload_grades_snd cl grades⟩

/-- C3 counterexample: a `post_grade` call that returns a non-2xx result
(`False`) without raising records no error at all — the claim's
"returning a non-2xx/false result" case yields an empty error list. -/
theorem post_grade_false_return_records_no_error :
    clientFalse.postGrade "a" 1 = .ok false ∧
    (upload_grades clientFalse [("a", some 1)]).1 = [] ∧
    Err.postFailed "a" ∉ (upload_grades clientFalse [("a", some 1)]).1 := by
  refine ⟨rfl, rfl, by decide⟩

/-- C2: the orchestrator performs no group expansion — a grade map with the
single group row `(GroupA, 90)` yields exactly one `post_grade` call, keyed
by the group identifier itself, never one per member; the member-expansion
helper `group_data_expand` (which would produce one record per member with
the group's grade) exists on the client but is never invoked by the
workflow. -/
theorem upload_no_group_expansion :
    (upload clientOk [("GroupA", some 90)] [] [] .GRADES).2
      = [Call.postGrade "GroupA" 90] ∧
    ((upload clientOk [("GroupA", some 90)] [] [] .GRADES).2).length = 1 ∧
    group_data_expand ["member1", "member2", "member3"] ("GroupA", 90)
      = [⟨"member1", 90, "GroupA"⟩, ⟨"member2", 90, "GroupA"⟩,
         ⟨"member3", 90, "GroupA"⟩] :=
  ⟨rfl, rfl, rfl⟩

/-- C1 (amended): when at least one file is located but fewer than the
number of search roots, the "likely missing files" warning is the only
record for that id and **no** located file is uploaded — the warning branch
and the upload loop are mutually exclusive in the source. -/
theorem upload_files_partial_blocks (cl : Client) (lid : String) (dirs : List Root)
    (h1 : search_dirs lid dirs ≠ [])
    (h2 : (search_dirs lid dirs).length < dirs.length) :
    upload_files cl [lid] dirs = ([Err.fewerFiles lid], []) := by
  cases hf : search_dirs lid dirs with
  | nil => exact absurd hf h1
  | cons f fs =>
    rw [hf] at h2
    simp only [upload_files, hf, if_pos h2]
    simp [upload_files]

/-- C1 witness: one root holding `stu1_x.pdf` and one empty root — one file
found, two roots searched. -/
theorem upload_files_partial_blocks_witness :
    search_dirs "stu1" [[stuEnt], []] ≠ [] ∧
    (search_dirs "stu1" [[stuEnt], []]).length < ([[stuEnt], []] : List Root).length ∧
    upload_files clientOk ["stu1"] [[stuEnt], []] = ([Err.fewerFiles "stu1"], []) :=
  ⟨by decide, by decide,
    upload_files_partial_blocks clientOk "stu1" [[stuEnt], []] (by decide) (by decide)⟩

/-- C1 counterexample: with one match across two roots the warning is
recorded, yet the located file is **not** passed to `upload_file` — the
call trace is empty, contradicting "every located file is still passed to
assignmentClient.uploadFile". -/
theorem upload_files_partial_found_not_uploaded :
    search_dirs "stu1" [[stuEnt], []] = [stuEnt] ∧
    Err.fewerFiles "stu1" ∈ (upload_files clientOk ["stu1"] [[stuEnt], []]).1 ∧
    Call.uploadFile "stu1" stuEnt ∉ (upload_files clientOk ["stu1"] [[stuEnt], []]).2 := by
  decide

/-- C4 (amended): when no file matches a lookup id, the phase records the
"No files found" error and — whenever at least one root was searched — also
the "fewer files than directories" warning, and `upload_file` is never
called. -/
theorem upload_files_none_found (cl : Client) (lid : String) (dirs : List Root)
    (h : search_dirs lid dirs = []) :
    upload_files cl [lid] dirs
      = ((if dirs.isEmpty then [Err.noFilesFound lid]
          else [Err.noFilesFound lid, Err.fewerFiles lid]), []) := by
  cases dirs with
  | nil => simp [upload_files, search_dirs, uploadFiles_loop]
  | cons d ds => simp [upload_files, h]

/-- C4 witness: `stuX` matches nothing in the single root searched. -/
theorem upload_files_none_found_witness :
    search_dirs "stuX" [[otherEnt]] = [] ∧
    upload_files clientOk ["stuX"] [[otherEnt]]
      = ([Err.noFilesFound "stuX", Err.fewerFiles "stuX"], []) := by
  refine ⟨by decide, ?_⟩
  simpa using upload_files_none_found clientOk "stuX" [[otherEnt]] (by decide)

/-- C4 counterexample: with one (non-matching) root the error list for
`stuX` has two entries, not "exactly the single entry
`[stuX: no files found]`"; `upload_file` is indeed never called. -/
theorem upload_files_none_found_two_errors :
    ((upload_files clientOk ["stuX"] [[otherEnt]]).1).length = 2 ∧
    (upload_files clientOk ["stuX"] [[otherEnt]]).1 ≠ [Err.noFilesFound "stuX"] ∧
    (upload_files clientOk ["stuX"] [[otherEnt]]).2 = [] := by
  decide

/-- C6 (amended): `search_dirs` returns exactly the entries whose name
**starts with** the identifier (glob `idx*`), aggregated root by root in
order with discovery order preserved inside each root, and with no
deduplication — each root contributes its matches with full multiplicity. -/
theorem search_dirs_flat_order_nodedup (idx : String) (dirs : List Root) :
    search_dirs idx dirs
      = (dirs.map (fun d => d.filter (rglobMatches idx))).flatten ∧
    ∀ f : FileEnt, (search_dirs idx dirs).count f
      = (dirs.map (fun d => (d.filter (rglobMatches idx)).count f)).sum := by
  refine ⟨search_dirs_eq idx dirs, fun f => ?_⟩
  rw [search_dirs_eq]
  induction dirs with
  | nil => rfl
  | cons d ds ih => simp [List.count_append, ih]

/-- C6 counterexample: `x_stu1.pdf` contains `stu1` as a substring but does
not start with it; the spec-worded locator returns it, `search_dirs` does
not — the locator is a prefix matcher, not a substring matcher. -/
theorem search_dirs_not_substring :
    locate_spec "stu1" [[infixEnt]] = [infixEnt] ∧
    search_dirs "stu1" [[infixEnt]] = [] ∧
    search_dirs "stu1" [[infixEnt]] ≠ locate_spec "stu1" [[infixEnt]] := by
  decide

/-- Matching against the empty identifier accepts every entry
(`rglob("*")`). -/
theorem rglobMatches_empty_id (f : FileEnt) : rglobMatches "" f = true := by
  simp [rglobMatches]

/-- Filtering by the empty identifier keeps a root unchanged. -/
theorem filter_rglobMatches_empty (d : Root) : d.filter (rglobMatches "") = d := by
  induction d with
  | nil => rfl
  | cons f fs ih => simp [List.filter_cons, rglobMatches_empty_id, ih]

/-- C10 (amended): the empty identifier is never rejected —
`search_dirs "" dirs` returns every entry of every root; the files phase
then uploads all of them **provided** at least as many entries were found
as roots searched (otherwise the "fewer files" branch suppresses all
uploads). -/
theorem search_dirs_empty_id_matches_all :
    (∀ dirs : List Root, search_dirs "" dirs = dirs.flatten) ∧
    (∀ (cl : Client) (dirs : List Root), dirs.length ≤ dirs.flatten.length →
      (upload_files cl [""] dirs).2 = dirs.flatten.map (Call.uploadFile "")) := by
  have hall : ∀ dirs : List Root, search_dirs "" dirs = dirs.flatten := by
    intro dirs
    rw [search_dirs_eq]
    induction dirs with
    | nil => rfl
    | cons d ds ih =>
      rw [List.map_cons, List.flatten_cons, ih, filter_rglobMatches_empty, List.flatten_cons]
  refine ⟨hall, fun cl dirs h => ?_⟩
  simp only [upload_files, hall]
  rw [if_neg (by omega)]
  simp [uploadFiles_loop_snd]

/-- C10 witness: two roots of one file each — both entries are matched by
the empty id and both are uploaded. -/
theorem search_dirs_empty_id_matches_all_witness :
    ([[e1Ent], [e2Ent]] : List Root).length
      ≤ ([[e1Ent], [e2Ent]] : List Root).flatten.length ∧
    (upload_files clientOk [""] [[e1Ent], [e2Ent]]).2
      = [Call.uploadFile "" e1Ent, Call.uploadFile "" e2Ent] := by
  refine ⟨by decide, ?_⟩
  simpa using search_dirs_empty_id_matches_all.2 clientOk [[e1Ent], [e2Ent]] (by decide)

/-- C10 counterexample: with an empty root next to a one-file root, the
empty id matches that file but the files phase uploads nothing (one match
is fewer than two roots), contradicting "attempts an upload of every file
found under all search roots". -/
theorem empty_id_upload_blocked :
    search_dirs "" [[], [e2Ent]] = [e2Ent] ∧
    (upload_files clientOk [""] [[], [e2Ent]]).2 = [] ∧
    Call.uploadFile "" e2Ent ∉ (upload_files clientOk [""] [[], [e2Ent]]).2 := by
  decide

/-- C5 (amended): no identifier is silently dropped — in the grades phase
each grade-map key receives at most one error record (keys being unique)
and every entry either yields an error or a `post_grade` call; in the files
phase every lookup id either yields an error or an `upload_file` call —
but an id may receive more than one file-phase error record. -/
theorem upload_no_silent_drop :
    (∀ (cl : Client) (grades : List (String × Option Grade)) (id : String),
        (grades.map Prod.fst).Nodup →
        (((upload_grades cl grades).1).map Err.errId).count id ≤ 1) ∧
    (∀ (cl : Client) (grades : List (String × Option Grade)) (p : String × Option Grade),
        p ∈ grades →
        (∃ e ∈ (upload_grades cl grades).1, e.errId = p.1) ∨
        (∃ c ∈ (upload_grades cl grades).2, c.callId = p.1)) ∧
    (∀ (cl : Client) (ids : List String) (dirs : List Root) (lid : String),
        lid ∈ ids →
        (∃ e ∈ (upload_files cl ids dirs).1, e.errId = lid) ∨
        (∃ c ∈ (upload_files cl ids dirs).2, c.callId = lid)) := by
  refine ⟨fun cl grades id h => ?_, fun cl grades p hp => ?_, fun cl ids dirs lid hmem => ?_⟩
  · exact le_trans (upload_grades_errId_count_le cl grades id)
      (List.nodup_iff_count_le_one.mp h id)
  · induction grades with
    | nil => simp at hp
    | cons q rest ih =>
      rcases List.mem_cons.mp hp with rfl | hmem
      · obtain ⟨id, g⟩ := p
        cases g with
        | none => exact Or.inl ⟨Err.missingGrade id, by simp [upload_grades], rfl⟩
        | some g =>
          refine Or.inr ⟨Call.postGrade id g, ?_, rfl⟩
          cases h : cl.postGrade id g <;> simp [upload_grades, h]
      · rcases ih hmem with ⟨e, he, hid⟩ | ⟨c, hc, hid⟩
        · refine Or.inl ⟨e, ?_, hid⟩
          obtain ⟨qid, qg⟩ := q
          cases qg with
          | none => simp [upload_grades, he]
          | some g => cases h : cl.postGrade qid g <;> simp [upload_grades, h, he]
        · refine Or.inr ⟨c, ?_, hid⟩
          obtain ⟨qid, qg⟩ := q
          cases qg with
          | none => simp [upload_grades, hc]
          | some g => cases h : cl.postGrade qid g <;> simp [upload_grades, h, hc]
  · induction ids with
    | nil => simp at hmem
    | cons x rest ih =>
      rcases List.mem_cons.mp hmem with rfl | hmem'
      · by_cases hemp : search_dirs lid dirs = []
        · refine Or.inl ⟨Err.noFilesFound lid, ?_, rfl⟩
          simp [upload_files, hemp]
        · by_cases hlt : (search_dirs lid dirs).length < dirs.length
          · refine Or.inl ⟨Err.fewerFiles lid, ?_, rfl⟩
            simp [upload_files, if_pos hlt]
          · cases hf : search_dirs lid dirs with
            | nil => exact absurd hf hemp
            | cons f fs =>
              refine Or.inr ⟨Call.uploadFile lid f, ?_, rfl⟩
              rw [hf] at hlt
              have hsnd : (upload_files cl (lid :: rest) dirs).2
                  = (f :: fs).map (Call.uploadFile lid)
                    ++ (upload_files cl rest dirs).2 := by
                simp only [upload_files, hf, if_neg hlt, uploadFiles_loop_snd]
              rw [hsnd]
              simp
      · rcases ih hmem' with ⟨e, he, hid⟩ | ⟨c, hc, hid⟩
        · exact Or.inl ⟨e, by simp [upload_files, he], hid⟩
        · exact Or.inr ⟨c, by simp [upload_files, hc], hid⟩

/-- C5 witness: a raise on `bad` among other ids still leaves every id with
an error or a call; a files-phase id over one empty root gets an error. -/
theorem upload_no_silent_drop_witness :
    ((((upload_grades clientRaisesBad [("a", some 1), ("bad", some 2)]).1).map
        Err.errId).count "a" ≤ 1) ∧
    ((∃ e ∈ (upload_grades clientRaisesBad [("a", some 1), ("bad", some 2)]).1,
        e.errId = "bad") ∨
      (∃ c ∈ (upload_grades clientRaisesBad [("a", some 1), ("bad", some 2)]).2,
        c.callId = "bad")) ∧
    ((∃ e ∈ (upload_files clientOk ["a"] [[]]).1, e.errId = "a") ∨
      (∃ c ∈ (upload_files clientOk ["a"] [[]]).2, c.callId = "a")) :=
  ⟨upload_no_silent_drop.1 clientRaisesBad [("a", some 1), ("bad", some 2)] "a" (by decide),
   upload_no_silent_drop.2.1 clientRaisesBad [("a", some 1), ("bad", some 2)]
     ("bad", some 2) (by decide),
   upload_no_silent_drop.2.2 clientOk ["a"] [[]] "a" (by decide)⟩

/-- C5 counterexample: the files phase over a single empty root records two
error entries for the same identifier, contradicting "none receives more
than one error record per operation type". -/
theorem files_phase_two_errors_per_id :
    (upload clientOk [] ["a"] [[]] .FILES).1
      = [Err.noFilesFound "a", Err.fewerFiles "a"] ∧
    ((((upload clientOk [] ["a"] [[]] .FILES).1).map Err.errId).count "a") = 2 := by
  decide

end Cheesegrader
